import Mathlib

/-!
# Verification of the chui command-execution and plugin-lifecycle core

Shallow embedding of the components of the chui repository that the
specification's testable properties talk about:

* `chui/commands/pipeline.py` — `CommandPipeline`, `CommandContext`,
  `CommandResult`, the local/remote execution strategies and cancellation;
* `chui/events/base.py` — `EventManager`, `OperationContext`, `Event`;
* `chui/commands/registry.py` — `CommandRegistry` and the category
  validator from `chui/utilities/validators.py`;
* `chui/plugins/registry.py` together with the command-registration
  surface of `chui/cli.py` (`ChuiCLI.register_plugin_command`).

Modelling conventions:

* `datetime.now()` is modelled by a strictly increasing tick counter
  (`Nat`); every call to `now()` in the source consumes one tick.
  Real clocks are only non-decreasing, so facts of the form
  "end ≥ start" proved here hold a fortiori.
* Python dicts keyed by UUID are modelled as function maps
  `Nat → Option α` (UUIDs are modelled as `Nat`); dicts that the source
  iterates over are modelled as association lists, preserving insertion
  order as Python dicts do.
* Python callables supplied from the outside (pipeline hooks, event
  handlers, plugin `_initialize`/`_cleanup` bodies, child processes) are
  modelled by their observable outcome: either they return normally or
  they raise an exception carrying a message.  They do not mutate the
  component state, which matches every use in the repository.
* Exceptions are the `PyErr` type below; a function that can let an
  exception escape to its caller returns it as data.
* `timeout` is a float in the source; it is modelled as `Option Nat`
  (seconds).  No claim depends on fractional timeouts.
-/

namespace Chui

/-! ## Exceptions (chui/core/errors.py) -/

/-- Exceptions that the embedded code can raise.  `commandError`,
`pluginError` and `eventError` are the `ChuiError` subclasses from
`chui/core/errors.py`; `valueError`, `typeError` and `exc` stand for the
Python built-ins. -/
inductive PyErr
  | exc (msg : String)
  | valueError (msg : String)
  | typeError (msg : String)
  | commandError (msg : String)
  | pluginError (msg : String)
  | eventError (msg : String) (cause : String)
  deriving DecidableEq, Repr

/-- `str(e)` on an exception: its message. -/
def PyErr.str : PyErr → String
  | .exc m => m
  | .valueError m => m
  | .typeError m => m
  | .commandError m => m
  | .pluginError m => m
  | .eventError m _ => m

/-- `isinstance(e, PluginError)`. -/
def PyErr.isPluginError : PyErr → Bool
  | .pluginError _ => true
  | _ => false

/-- `isinstance(e, CommandError)`. -/
def PyErr.isCommandError : PyErr → Bool
  | .commandError _ => true
  | _ => false

/-! ## Command pipeline (chui/commands/pipeline.py) -/

/-- `CommandStatus` enum. -/
inductive CommandStatus
  | queued
  | running
  | completed
  | failed
  | cancelled
  deriving DecidableEq, Repr

/-- The three terminal statuses of the execution state machine. -/
def CommandStatus.isTerminal : CommandStatus → Bool
  | .completed => true
  | .failed => true
  | .cancelled => true
  | .queued => false
  | .running => false

/-- `CommandContext` dataclass.  `command_id : UUID` is modelled as `Nat`. -/
structure CommandContext where
  command_id : Nat
  name : String
  args : List String
  options : List (String × String) := []
  env : List (String × String) := []
  cwd : Option String := none
  timeout : Option Nat := none
  host : Option String := none
  deriving DecidableEq, Repr

/-- `CommandResult` dataclass. -/
structure CommandResult where
  command_id : Nat
  status : CommandStatus
  start_time : Nat
  end_time : Option Nat := none
  exit_code : Option Int := none
  output : Option String := none
  error : Option String := none
  deriving DecidableEq, Repr

/-- Python truthiness of an `Optional[str]`: `if context.host:` is true
iff the value is neither `None` nor the empty string. -/
def pyTruthy : Option String → Bool
  | none => false
  | some s => s ≠ ""

/-- Rendering of `context.timeout` inside the f-string
`f"Command timed out after {context.timeout} seconds"`. -/
def timeoutStr : Option Nat → String
  | none => "None"
  | some n => toString n

/-- Outcome of the spawned child process in `_execute_local`:
`communicate` returned (`exited`), `subprocess.TimeoutExpired` was raised
(`timedOut`), or `Popen`/setup raised some other exception
(`spawnError`). -/
inductive ProcOutcome
  | exited (returncode : Int) (stdout stderr : String)
  | timedOut
  | spawnError (msg : String)
  deriving DecidableEq, Repr

/-- `CommandPipeline._execute_local`.  The child process behaviour is the
`proc` parameter; the function never lets an exception escape (its outer
`try` catches everything) and stamps `end_time` in its `finally` block.
Returns the result together with the advanced clock. -/
def executeLocal (ctx : CommandContext) (proc : ProcOutcome) (clock : Nat) :
    CommandResult × Nat :=
  let start := clock
  let clock := clock + 1
  let r : CommandResult :=
    { command_id := ctx.command_id, status := .running, start_time := start }
  let r : CommandResult :=
    match proc with
    | .exited code out err =>
      let r := { r with exit_code := some code, output := some out }
      if code ≠ 0 then { r with status := .failed, error := some err }
      else { r with status := .completed }
    | .timedOut =>
      { r with
        status := .failed,
        error := some ("Command timed out after " ++ timeoutStr ctx.timeout ++ " seconds"),
        exit_code := some (-1) }
    | .spawnError msg =>
      { r with status := .failed, error := some msg, exit_code := some (-1) }
  ({ r with end_time := some clock }, clock + 1)

/-- `CommandPipeline._execute_remote`: the unimplemented placeholder.
It builds a FAILED result whose `start_time` and `end_time` come from two
consecutive `datetime.now()` calls. -/
def executeRemote (ctx : CommandContext) (clock : Nat) : CommandResult × Nat :=
  ({ command_id := ctx.command_id
     status := .failed
     start_time := clock
     end_time := some (clock + 1)
     error := some "Remote execution not yet implemented" }, clock + 2)

/-- Behaviour of the collaborators during one `execute` call: the outcome
of each registered hook (in registration order; `none` = returned,
`some e` = raised `e`) and of each `event_manager.emit` call (`some e` =
a subscribed handler raised and `emit` propagated an exception `e`). -/
structure ExecEnv where
  preOutcomes : List (Option PyErr) := []
  emitStarted : Option PyErr := none
  proc : ProcOutcome := .exited 0 "" ""
  postOutcomes : List (Option PyErr) := []
  emitCompleted : Option PyErr := none
  onErrorOutcomes : List (Option PyErr) := []
  emitFailed : Option PyErr := none
  deriving Repr

/-- First exception raised by a list of hook calls executed in order
(`for hook in hooks: hook(...)`). -/
def firstRaise : List (Option PyErr) → Option PyErr
  | [] => none
  | none :: t => firstRaise t
  | some e :: _ => some e

/-- State owned by `CommandPipeline`: the result store and the
active-invocation map (both dicts keyed by UUID) plus the clock. -/
structure PipelineState where
  results : Nat → Option CommandResult
  active : Nat → Option CommandContext
  clock : Nat

/-- A freshly constructed `CommandPipeline`. -/
def PipelineState.start : PipelineState :=
  { results := fun _ => none, active := fun _ => none, clock := 0 }

/-- Dict update `m[k] = v` (or deletion when `v = none`). -/
def setMap {α : Type} (m : Nat → Option α) (k : Nat) (v : Option α) :
    Nat → Option α :=
  fun x => if x = k then v else m x

/-- How one call to `CommandPipeline.execute` ends for its caller:
it returns a `CommandResult`, or an exception propagates out of it. -/
inductive ExecOutcome
  | returned (r : CommandResult)
  | raised (e : PyErr)
  deriving DecidableEq, Repr

/-- The `except Exception as e:` block of `CommandPipeline.execute`:
marks the result FAILED, stamps `end_time`, records `str(e)`, runs the
`on_error` hooks, emits `command.failed`, then calls
`error_handler.handle(error=e, command=context.name, host=context.host)`.
`ErrorHandler.handle` accepts no keyword arguments named `command` or
`host`, so that call raises a `TypeError`; hence this block always
propagates an exception (an `on_error` hook's or `emit`'s own exception,
or the `TypeError`).  Returns (outcome, result as mutated, clock). -/
def executeExcept (env : ExecEnv) (e : PyErr) (r : CommandResult) (clock : Nat) :
    ExecOutcome × CommandResult × Nat :=
  let r := { r with status := .failed, end_time := some clock, error := some e.str }
  let clock := clock + 1
  match firstRaise env.onErrorOutcomes with
  | some e2 => (.raised e2, r, clock)
  | none =>
    -- Event(..., timestamp=datetime.now()) for command.failed
    let clock := clock + 1
    match env.emitFailed with
    | some e2 => (.raised e2, r, clock)
    | none =>
      (.raised (.typeError "handle() got an unexpected keyword argument 'command'"),
       r, clock)

/-- The `try:` body of `CommandPipeline.execute` (steps 2–6 of the spec's
lifecycle), with its `except` handler.  `r0` is the QUEUED result built at
entry.  Returns (outcome for the caller, result as finally stored, clock). -/
def executeTry (ctx : CommandContext) (env : ExecEnv) (r0 : CommandResult)
    (clock : Nat) : ExecOutcome × CommandResult × Nat :=
  match firstRaise env.preOutcomes with
  | some e => executeExcept env e r0 clock
  | none =>
    -- Event(..., timestamp=datetime.now()) for command.started
    let clock := clock + 1
    match env.emitStarted with
    | some e => executeExcept env e r0 clock
    | none =>
      -- result.status = CommandStatus.RUNNING (on the object about to be
      -- replaced by the strategy's result)
      let sr :=
        if pyTruthy ctx.host then executeRemote ctx clock
        else executeLocal ctx env.proc clock
      -- result.status = COMPLETED; result.end_time = datetime.now()
      -- (unconditionally, on whatever the strategy returned)
      let r := { sr.1 with status := .completed, end_time := some sr.2 }
      let clock := sr.2 + 1
      match firstRaise env.postOutcomes with
      | some e => executeExcept env e r clock
      | none =>
        -- Event(..., timestamp=datetime.now()) for command.completed
        let clock := clock + 1
        match env.emitCompleted with
        | some e => executeExcept env e r clock
        | none => (.returned r, r, clock)

/-- `CommandPipeline.execute`: registers the invocation in the active map,
builds the QUEUED result, runs the try/except body, and in its `finally`
block stores the result and removes the invocation from the active map
(this happens for every outcome, including a propagating exception). -/
def execute (st : PipelineState) (ctx : CommandContext) (env : ExecEnv) :
    ExecOutcome × PipelineState :=
  let active := setMap st.active ctx.command_id (some ctx)
  let r0 : CommandResult :=
    { command_id := ctx.command_id, status := .queued, start_time := st.clock }
  let tr := executeTry ctx env r0 (st.clock + 1)
  (tr.1,
   { results := setMap st.results ctx.command_id (some tr.2.1)
     active := setMap active ctx.command_id none
     clock := tr.2.2 })

/-- `CommandPipeline.get_result`. -/
def get_result (st : PipelineState) (id : Nat) : Option CommandResult :=
  st.results id

/-- `CommandPipeline.get_active_commands` (the defensive copy is the map
itself in this pure model). -/
def get_active_commands (st : PipelineState) : Nat → Option CommandContext :=
  st.active

/-- `CommandPipeline.cancel_command`: raises `ValueError` when the id is
not active; otherwise synthesizes a CANCELLED result from two consecutive
`now()` calls, stores it, removes the invocation from the active map, and
emits `command.cancelled` (whose handlers may raise, `emitOutcome`).
First component: the exception propagated to the caller, if any. -/
def cancel_command (st : PipelineState) (id : Nat) (emitOutcome : Option PyErr) :
    Option PyErr × PipelineState :=
  match st.active id with
  | none => (some (.valueError ("No active command found with id: " ++ toString id)), st)
  | some _ =>
    let r : CommandResult :=
      { command_id := id
        status := .cancelled
        start_time := st.clock
        end_time := some (st.clock + 1) }
    (emitOutcome,
     { results := setMap st.results id (some r)
       active := setMap st.active id none
       -- two now() calls for the result, one for the event timestamp
       clock := st.clock + 3 })

/-- A caller-visible operation on one `CommandPipeline` object. -/
inductive PipeOp
  | exec (ctx : CommandContext) (env : ExecEnv)
  | cancel (id : Nat) (emitOutcome : Option PyErr)

/-- Run a sequence of pipeline operations. -/
def runOps : List PipeOp → PipelineState → PipelineState
  | [], st => st
  | .exec ctx env :: rest, st => runOps rest (execute st ctx env).2
  | .cancel id em :: rest, st => runOps rest (cancel_command st id em).2

/-- The property claimed for every stored `CommandResult`: terminal status
and a non-null `end_time` that is ≥ `start_time`. -/
def ResultOk (r : CommandResult) : Prop :=
  r.status.isTerminal = true ∧ ∃ t, r.end_time = some t ∧ r.start_time ≤ t

/-- Every result in the store satisfies `ResultOk`. -/
def StoredOk (st : PipelineState) : Prop :=
  ∀ id r, st.results id = some r → ResultOk r

/-! ## Event manager (chui/events/base.py) -/

/-- `Event` dataclass.  `data` is opaque payload, modelled as a string;
`operation_id : Optional[UUID]` is modelled as `Option Nat`.  The
timestamp is caller-supplied, as in the source. -/
structure Event where
  name : String
  data : String := ""
  timestamp : Nat
  operation_id : Option Nat := none
  source : Option String := none
  deriving DecidableEq, Repr

/-- The dict `{"timestamp": ..., "name": ..., "data": ...}` that
`OperationContext.add_event` appends to the timeline. -/
structure EventSnap where
  timestamp : Nat
  name : String
  data : String
  deriving DecidableEq, Repr

/-- Snapshot taken of an event by `OperationContext.add_event`. -/
def Event.snap (e : Event) : EventSnap :=
  { timestamp := e.timestamp, name := e.name, data := e.data }

/-- `OperationContext` dataclass (metadata mapping omitted: no claim
touches it). -/
structure OperationContext where
  operation_id : Nat
  operation_type : String
  start_time : Nat
  status : String := "in_progress"
  events : List EventSnap := []
  end_time : Option Nat := none
  error : Option String := none
  deriving DecidableEq, Repr

/-- An event handler, modelled by an identity and its outcome when
called: `none` = returns normally, `some m` = raises `Exception(m)`. -/
structure Handler where
  hid : Nat
  outcome : Option String := none
  deriving DecidableEq, Repr

/-- `EventError` as raised by `EventManager.emit`: the wrapping message
and `str` of the original cause. -/
structure EvError where
  message : String
  cause : String
  deriving DecidableEq, Repr

/-- State owned by `EventManager`: exact-name handler lists (dict with
default `[]`), wildcard handler list, active and completed operation
stores, the uuid4 source (modelled as a fresh counter) and the clock. -/
structure EMState where
  handlers : String → List Handler
  wildcards : List Handler
  active : Nat → Option OperationContext
  completed : Nat → Option OperationContext
  nextId : Nat
  clock : Nat

/-- A freshly constructed `EventManager`. -/
def EMState.fresh : EMState :=
  { handlers := fun _ => []
    wildcards := []
    active := fun _ => none
    completed := fun _ => none
    nextId := 0
    clock := 0 }

/-- `EventManager.subscribe`: `"*"` goes to the wildcard list, anything
else is appended to that name's list. -/
def subscribe (s : EMState) (event_name : String) (h : Handler) : EMState :=
  if event_name = "*" then { s with wildcards := s.wildcards ++ [h] }
  else
    { s with
      handlers := fun n => if n = event_name then s.handlers n ++ [h] else s.handlers n }

/-- One dispatch pass of `emit` over a handler list: each handler is
called in order inside `try/except`; the first one that raises makes
`emit` raise `EventError(f"Error in {label}: {str(e)}", e)` and aborts the
rest of the pass.  Returns the ids of the handlers that were invoked and
the propagated error, if any. -/
def runHandlers (label : String) : List Handler → List Nat × Option EvError
  | [] => ([], none)
  | h :: t =>
    match h.outcome with
    | some m => ([h.hid], some { message := "Error in " ++ label ++ ": " ++ m, cause := m })
    | none =>
      let r := runHandlers label t
      (h.hid :: r.1, r.2)

/-- The timeline-append step at the top of `emit`: if the event carries an
operation id that names an active operation, append its snapshot to that
operation's timeline before any handler runs. -/
def addToTimeline (s : EMState) (ev : Event) : EMState :=
  match ev.operation_id with
  | none => s
  | some oid =>
    match s.active oid with
    | none => s
    | some ctx =>
      { s with
        active := setMap s.active oid (some { ctx with events := ctx.events ++ [ev.snap] }) }

/-- `EventManager.emit`: timeline append, then exact-name handlers, then
wildcard handlers.  Returns the state, the invoked handler ids in call
order, and the `EventError` propagated to the caller, if any. -/
def emit (s : EMState) (ev : Event) : EMState × List Nat × Option EvError :=
  let s := addToTimeline s ev
  let r1 := runHandlers "event handler" (s.handlers ev.name)
  match r1.2 with
  | some err => (s, r1.1, some err)
  | none =>
    let r2 := runHandlers "wildcard handler" s.wildcards
    (s, r1.1 ++ r2.1, r2.2)

/-- `EventManager.start_operation`: a fresh id, a new in-progress
`OperationContext` in the active store.  Returns the id. -/
def start_operation (s : EMState) (operation_type : String) : Nat × EMState :=
  (s.nextId,
   { s with
     active := setMap s.active s.nextId
       (some { operation_id := s.nextId
               operation_type := operation_type
               start_time := s.clock })
     nextId := s.nextId + 1
     clock := s.clock + 1 })

/-- `EventManager.complete_operation`: raises `ValueError` for an id that
is not active; otherwise pops the context from the active store, stamps
status/end time/error (`OperationContext.complete`) and files it under
completed. -/
def complete_operation (s : EMState) (oid : Nat) (status : String)
    (error : Option String) : Option PyErr × EMState :=
  match s.active oid with
  | none => (some (.valueError ("No active operation found for ID: " ++ toString oid)), s)
  | some ctx =>
    (none,
     { s with
       active := setMap s.active oid none
       completed := setMap s.completed oid
         (some { ctx with status := status, end_time := some s.clock, error := error })
       clock := s.clock + 1 })

/-- `EventManager.get_operation_status`: the active entry if there is one,
else the completed entry. -/
def get_operation_status (s : EMState) (oid : Nat) : Option OperationContext :=
  match s.active oid with
  | some ctx => some ctx
  | none => s.completed oid

/-- Ordering of timeline snapshots used by `get_operation_timeline`
(`sorted(events, key=lambda e: e["timestamp"])`). -/
def tsLe (a b : EventSnap) : Prop := a.timestamp ≤ b.timestamp

instance : DecidableRel tsLe := fun a b => Nat.decLe a.timestamp b.timestamp

instance : IsTotal EventSnap tsLe := ⟨fun a b => Nat.le_total a.timestamp b.timestamp⟩

instance : IsTrans EventSnap tsLe := ⟨fun _ _ _ => Nat.le_trans⟩

/-- `EventManager.get_operation_timeline`: empty for an unknown id,
otherwise the operation's event snapshots sorted by ascending timestamp
(Python's stable sort is modelled as insertion sort by timestamp). -/
def get_operation_timeline (s : EMState) (oid : Nat) : List EventSnap :=
  match get_operation_status s oid with
  | none => []
  | some ctx => List.insertionSort tsLe ctx.events

/-- A caller-visible operation on one `EventManager` object. -/
inductive EMOp
  | startOp (operation_type : String)
  | completeOp (oid : Nat) (status : String) (error : Option String)
  | emitEv (ev : Event)

/-- Run a sequence of event-manager operations (the state mutation
happens even when `emit` or `complete_operation` raises, exactly as for
the in-place mutations of the source). -/
def runEM : List EMOp → EMState → EMState
  | [], s => s
  | .startOp t :: rest, s => runEM rest (start_operation s t).2
  | .completeOp oid st er :: rest, s => runEM rest (complete_operation s oid st er).2
  | .emitEv ev :: rest, s => runEM rest (emit s ev).1

/-- Number of `start_operation` calls in a trace: from a fresh manager the
returned operation ids are exactly `0, …, countStarts tr - 1`. -/
def countStarts : List EMOp → Nat
  | [] => 0
  | .startOp _ :: rest => countStarts rest + 1
  | .completeOp _ _ _ :: rest => countStarts rest
  | .emitEv _ :: rest => countStarts rest

/-- Invariant of reachable event-manager states: every id at or above the
fresh-id counter is unused, and no id is simultaneously in the active and
the completed store. -/
def EMInv (s : EMState) : Prop :=
  (∀ j, s.nextId ≤ j → s.active j = none ∧ s.completed j = none) ∧
  (∀ j, s.active j = none ∨ s.completed j = none)

/-- The snapshot `x` is recorded in operation `oid`'s stored timeline
(active or completed). -/
def inTimelineRaw (s : EMState) (oid : Nat) (x : EventSnap) : Prop :=
  (∃ ctx, s.active oid = some ctx ∧ x ∈ ctx.events) ∨
  (∃ ctx, s.completed oid = some ctx ∧ x ∈ ctx.events)

/-! ## Command registry (chui/commands/registry.py and
chui/utilities/validators.py) -/

/-- Character class `[a-z]`. -/
def isLowerAlpha (c : Char) : Bool := 'a' ≤ c && c ≤ 'z'

/-- Character class `[a-z0-9_-]`. -/
def isCategoryChar (c : Char) : Bool :=
  isLowerAlpha c || ('0' ≤ c && c ≤ '9') || c = '_' || c = '-'

/-- `CategoryValidator.validate_category_name`: full match of
`^[a-z][a-z0-9_-]*$` (the Python `$` also accepting one trailing newline
is not modelled; no category name in the repository has one). -/
def validate_category_name (s : String) : Bool :=
  match s.data with
  | [] => false
  | c :: cs => isLowerAlpha c && cs.all isCategoryChar

/-- The fixed `core_categories` set of `CategoryValidator`. -/
def core_categories : List String := ["general", "system", "plugin"]

/-- `CategoryValidator`: the extended-category set (modelled as a
duplicate-free list). -/
structure CategoryValidator where
  extended_categories : List String := []
  deriving DecidableEq, Repr

/-- `CategoryValidator.is_valid_category`. -/
def CategoryValidator.is_valid_category (v : CategoryValidator) (category : String) : Bool :=
  category ∈ core_categories || category ∈ v.extended_categories

/-- `CategoryValidator.add_category`: refuses an invalid name, otherwise
adds to the extended set.  Returns whether the name was accepted. -/
def CategoryValidator.add_category (v : CategoryValidator) (category : String) :
    CategoryValidator × Bool :=
  if validate_category_name category then
    (if category ∈ v.extended_categories then v
     else { extended_categories := v.extended_categories ++ [category] }, true)
  else (v, false)

/-- Dict update for string-keyed function maps. -/
def setStrMap {α : Type} (m : String → Option α) (k : String) (v : Option α) :
    String → Option α :=
  fun x => if x = k then v else m x

/-- Dict lookup on an association list. -/
def alistGet {α : Type} (l : List (String × α)) (k : String) : Option α :=
  (l.find? (fun p => p.1 = k)).map (fun p => p.2)

/-- Dict update on an association list: replace in place when the key
exists, else append (Python dict insertion order). -/
def alistSet {α : Type} : List (String × α) → String → α → List (String × α)
  | [], k, v => [(k, v)]
  | (k', v') :: t, k, v =>
    if k' = k then (k, v) :: t else (k', v') :: alistSet t k v

/-- Dict deletion on an association list. -/
def alistRemove {α : Type} : List (String × α) → String → List (String × α)
  | [], _ => []
  | (k', v') :: t, k => if k' = k then t else (k', v') :: alistRemove t k

/-- State owned by `CommandRegistry`: `_commands` and
`_command_instances` (string-keyed dicts, values modelled as opaque
tokens), `_categories` (dict of lists, iterated over by `unregister`,
hence an association list) and the validator. -/
structure CommandRegistryState where
  commands : String → Option Nat := fun _ => none
  instances : String → Option Nat := fun _ => none
  categories : List (String × List String) :=
    [("general", []), ("system", []), ("plugin", [])]
  validator : CategoryValidator := {}

/-- `CommandRegistry.add_category`. -/
def CommandRegistryState.add_category (s : CommandRegistryState) (category : String) :
    CommandRegistryState × Bool :=
  let va := s.validator.add_category category
  if va.2 then
    let s := { s with validator := va.1 }
    (if (alistGet s.categories category).isNone then
       { s with categories := alistSet s.categories category [] }
     else s, true)
  else (s, false)

/-- `CommandRegistry.register`: raises `CommandError` (returned as data,
with the registry unchanged) when the name is taken; validates the
category, auto-admitting a well-formed new name and silently falling back
to `general` otherwise; then fills the three maps. -/
def CommandRegistryState.register (s : CommandRegistryState) (name : String)
    (command_class : Nat) (category : String) (instance? : Option Nat) :
    CommandRegistryState × Option PyErr :=
  if (s.commands name).isSome then
    (s, some (.commandError ("Command " ++ name ++ " is already registered")))
  else
    let sc :=
      if !(s.validator.is_valid_category category) then
        if validate_category_name category then ((s.add_category category).1, category)
        else (s, "general")
      else (s, category)
    let s := sc.1
    let category := sc.2
    let s :=
      if (alistGet s.categories category).isNone then
        { s with categories := alistSet s.categories category [] }
      else s
    let s :=
      { s with
        commands := setStrMap s.commands name (some command_class)
        categories := alistSet s.categories category
          ((alistGet s.categories category).getD [] ++ [name]) }
    let s :=
      match instance? with
      | some i => { s with instances := setStrMap s.instances name (some i) }
      | none => s
    (s, none)

/-- `CommandRegistry.unregister`: no-op when absent; otherwise removes
the name from the command map, the instance map and every category
list. -/
def CommandRegistryState.unregister (s : CommandRegistryState) (name : String) :
    CommandRegistryState :=
  if (s.commands name).isSome then
    { s with
      commands := setStrMap s.commands name none
      instances := setStrMap s.instances name none
      categories := s.categories.map (fun p => (p.1, p.2.erase name)) }
  else s

/-! ## Plugin registry (chui/plugins/registry.py) with the command
surface of the shell (chui/cli.py) -/

/-- What a plugin class contributes once instantiated: identity,
dependency declarations, `get_commands()` (command classes as opaque
tokens), and the outcomes of its template-method hooks `_initialize` and
`_cleanup` (`none` = return normally, `some m` = raise `Exception(m)`). -/
structure PluginData where
  name : String
  version : String := "1.0.0"
  dependencies : List String := []
  commands : List (String × Nat) := []
  initOutcome : Option String := none
  cleanupOutcome : Option String := none
  deriving DecidableEq, Repr

/-- A live plugin instance: its class data plus the `initialized` flag. -/
structure PluginInstance where
  data : PluginData
  initialized : Bool := false
  deriving DecidableEq, Repr

/-- `Plugin.initialize` (plugins/base.py): runs `_initialize`; a raise is
wrapped into `PluginError(f"Failed to initialize plugin {name}: {e}")`,
otherwise the instance is marked initialized. -/
def pluginInitialize (p : PluginInstance) : PluginInstance × Option PyErr :=
  match p.data.initOutcome with
  | some m =>
    (p, some (.pluginError ("Failed to initialize plugin " ++ p.data.name ++ ": " ++ m)))
  | none => ({ p with initialized := true }, none)

/-- `Plugin.cleanup` (plugins/base.py): runs `_cleanup`; its exceptions
are logged and swallowed (in which case `initialized` keeps its value),
otherwise the flag is reset. -/
def pluginCleanup (p : PluginInstance) : PluginInstance :=
  match p.data.cleanupOutcome with
  | some _ => p
  | none => { p with initialized := false }

/-- Combined state of the plugin subsystem: the maps owned by
`PluginRegistry` (`plugins`, `_load_order`, its own `commands` dict and
`command_categories`), the live shell command table
(`ChuiCLI._plugin_commands`; the generated `do_`/`help_` attributes track
it one-to-one and are not modelled separately), the shell's
`CommandRegistry`, and the log of emitted event names. -/
structure RegState where
  plugins : List (String × PluginInstance) := []
  load_order : List String := []
  prCommands : List (String × Nat) := []
  prCategories : List (String × List String) := [("core", []), ("plugin", []), ("admin", [])]
  cliCommands : String → Option Nat := fun _ => none
  creg : CommandRegistryState := {}
  eventsLog : List String := []

/-- How one call into the plugin subsystem ended: the exception that
propagated to the caller (if any) and the errors passed to
`ErrorHandler.handle` along the way (`handle` itself returns normally for
every `ChuiError`; it never re-raises). -/
structure PyCall where
  raised : Option PyErr := none
  reported : List PyErr := []
  deriving DecidableEq, Repr

/-- `ChuiCLI.register_plugin_command`: instantiate the command class
(instances are modelled by the class token), register it in the shell's
`CommandRegistry` under category `plugin`, then bind the live
`do_`/`help_` handlers and record the instance in `_plugin_commands`.
Its `except` block reports the error and re-raises. -/
def registerPluginCommand (s : RegState) (name : String) (cls : Nat) :
    RegState × PyCall :=
  let rr := s.creg.register name cls "plugin" (some cls)
  match rr.2 with
  | some e => ({ s with creg := rr.1 }, { raised := some e, reported := [e] })
  | none =>
    ({ s with creg := rr.1, cliCommands := setStrMap s.cliCommands name (some cls) },
     {})

/-- The `for (cmd_name, cmd_class) in plugin.get_commands().items()` loop
of `load_plugin`: registers each command through the shell; the first
exception aborts the loop and propagates. -/
def registerCommandsLoop (s : RegState) : List (String × Nat) → RegState × PyCall
  | [] => (s, {})
  | (n, c) :: rest =>
    let rc := registerPluginCommand s n c
    match rc.2.raised with
    | some _ => rc
    | none =>
      let rl := registerCommandsLoop rc.1 rest
      (rl.1, { raised := rl.2.raised, reported := rc.2.reported ++ rl.2.reported })

/-- `PluginRegistry.load_plugin`: validate name, uniqueness and
dependencies, initialize, record in `plugins` and `_load_order`, register
every command through `ChuiCLI.register_plugin_command`, emit
`plugin_loaded`.  The `except` block reports the error and re-raises
(`raise`), so failures reach the caller. -/
def load_plugin (s : RegState) (p : PluginData) : RegState × PyCall :=
  if p.name = "" then
    (s, { raised := some (.pluginError "Plugin must have a name")
          reported := [.pluginError "Plugin must have a name"] })
  else if (alistGet s.plugins p.name).isSome then
    (s, { raised := some (.pluginError ("Plugin " ++ p.name ++ " is already loaded"))
          reported := [.pluginError ("Plugin " ++ p.name ++ " is already loaded")] })
  else
    let missing := p.dependencies.filter (fun d => (alistGet s.plugins d).isNone)
    if missing ≠ [] then
      (s, { raised := some (.pluginError ("Missing dependencies for " ++ p.name ++ ": " ++
              String.intercalate ", " missing))
            reported := [.pluginError ("Missing dependencies for " ++ p.name ++ ": " ++
              String.intercalate ", " missing)] })
    else
      let pi := pluginInitialize { data := p }
      match pi.2 with
      | some e => (s, { raised := some e, reported := [e] })
      | none =>
        let s :=
          { s with
            plugins := alistSet s.plugins p.name pi.1
            load_order := s.load_order ++ [p.name] }
        let rl := registerCommandsLoop s p.commands
        match rl.2.raised with
        | some e => (rl.1, { raised := some e, reported := rl.2.reported ++ [e] })
        | none =>
          ({ rl.1 with eventsLog := rl.1.eventsLog ++ ["plugin_loaded"] }, rl.2)

/-- The dependent-plugin scan of `unload_plugin`:
`[p.name for p in self.plugins.values() if name in p.dependencies]`. -/
def dependentsOf (s : RegState) (name : String) : List String :=
  (s.plugins.filter (fun q => name ∈ q.2.data.dependencies)).map
    (fun q => q.2.data.name)

/-- `PluginRegistry.unload_plugin`: errors (not loaded / has dependents)
are raised inside the `try`, caught by the `except` block and passed to
`ErrorHandler.handle`, which does not re-raise — so `unload_plugin`
always returns normally to its caller.  On the success path it deletes
the plugin's command names from the `PluginRegistry.commands` dict and
from every `command_categories` list (note: not from the shell table or
the `CommandRegistry`), runs `cleanup`, removes the plugin from the
loaded map and the load order, and emits `plugin_unloaded`. -/
def unload_plugin (s : RegState) (name : String) : RegState × PyCall :=
  match alistGet s.plugins name with
  | none =>
    (s, { reported := [.pluginError ("Plugin " ++ name ++ " is not loaded")] })
  | some plugin =>
    let dependents := dependentsOf s name
    if dependents ≠ [] then
      (s, { reported := [.pluginError ("Cannot unload " ++ name ++ ", required by: " ++
              String.intercalate ", " dependents)] })
    else
      let cmdNames := plugin.data.commands.map (fun q => q.1)
      let removed := (s.prCommands.filter (fun q => q.1 ∈ cmdNames)).map (fun q => q.1)
      let s :=
        { s with
          prCommands := s.prCommands.filter (fun q => q.1 ∉ cmdNames)
          prCategories := s.prCategories.map
            (fun (q : String × List String) =>
              (q.1, removed.foldl (fun l n => l.erase n) q.2)) }
      let _ := pluginCleanup plugin
      let s :=
        { s with
          plugins := alistRemove s.plugins name
          load_order := s.load_order.erase name
          eventsLog := s.eventsLog ++ ["plugin_unloaded"] }
      (s, {})

/-! ## Concrete inputs used by individual claim theorems -/

/-- Invocation with a non-empty host used to evaluate the remote path. -/
def c1ctx : CommandContext :=
  { command_id := 1, name := "deploy", args := ["now"], host := some "server1" }

/-- The result `execute` returns and stores for `c1ctx` on a fresh
pipeline with no hooks and no failing event handlers. -/
def c1res : CommandResult :=
  { command_id := 1
    status := .completed
    start_time := 2
    end_time := some 4
    error := some "Remote execution not yet implemented" }

/-- Local invocation with a 5-second timeout used for the timeout path. -/
def c2ctx : CommandContext :=
  { command_id := 2, name := "sleep", args := ["10"], timeout := some 5 }

/-- The result `execute` returns for `c2ctx` when the child runs past its
timeout. -/
def c2resTimeout : CommandResult :=
  { command_id := 2
    status := .completed
    start_time := 2
    end_time := some 4
    exit_code := some (-1)
    error := some "Command timed out after 5 seconds" }

/-- The result `execute` returns for `c2ctx` when the child exits with
code 1 and standard error "boom". -/
def c2resExit1 : CommandResult :=
  { command_id := 2
    status := .completed
    start_time := 2
    end_time := some 4
    exit_code := some 1
    output := some ""
    error := some "boom" }

/-- Result stored by the concrete trace in the C5 witness. -/
def c5res : CommandResult :=
  { command_id := 5
    status := .completed
    start_time := 2
    end_time := some 4
    exit_code := some 0
    output := some "" }

/-- Plugin used by the C3 round-trip evaluation: one command "hello". -/
def c3plugin : PluginData :=
  { name := "p1", version := "1.0", commands := [("hello", 7)] }

/-- Event used by the C8 counterexample: emitted with operation id 0
after that operation has already been completed. -/
def c8ev : Event := { name := "e", timestamp := 9, operation_id := some 0 }

/-- Trace for the C8 counterexample: start operation 0, complete it, then
emit an event carrying its id. -/
def c8trace : List EMOp :=
  [.startOp "plugin_load", .completeOp 0 "completed" none, .emitEv c8ev]

/-- Event used by the C8 amended-claim witness: emitted while operation 0
is still active. -/
def c8goodEv : Event := { name := "e2", timestamp := 5, operation_id := some 0 }

/-- Event manager with a failing exact-name handler: handler 1 (returns)
and handler 2 (raises "bad") subscribed to "x", wildcard handler 3. -/
def c7emFail : EMState :=
  subscribe (subscribe (subscribe EMState.fresh "x" { hid := 1 })
    "x" { hid := 2, outcome := some "bad" }) "*" { hid := 3 }

/-- Event manager whose handlers all return: handler 1 on "x", wildcard
handler 3. -/
def c7emOk : EMState :=
  subscribe (subscribe EMState.fresh "x" { hid := 1 }) "*" { hid := 3 }

/-- The event delivered in the C7 witness. -/
def c7ev : Event := { name := "x", timestamp := 0 }

/-! ## Lemmas and claim theorems -/

lemma executeExcept_resultOk (env : ExecEnv) (e : PyErr) (r : CommandResult)
    (c : Nat) (h : r.start_time ≤ c) : ResultOk (executeExcept env e r c).2.1 := by
  unfold executeExcept
  rcases firstRaise env.onErrorOutcomes with _ | e2 <;>
    rcases env.emitFailed with _ | e3 <;>
      exact ⟨rfl, c, rfl, h⟩

lemma executeLocal_start (ctx : CommandContext) (proc : ProcOutcome) (c : Nat) :
    (executeLocal ctx proc c).1.start_time = c := by
  rcases proc with ⟨code, out, err⟩ | _ | msg <;> simp [executeLocal] <;> split <;> rfl

lemma executeLocal_clock (ctx : CommandContext) (proc : ProcOutcome) (c : Nat) :
    (executeLocal ctx proc c).2 = c + 2 := by
  rcases proc with ⟨code, out, err⟩ | _ | msg <;> rfl

lemma executeTry_resultOk (ctx : CommandContext) (env : ExecEnv)
    (r0 : CommandResult) (c : Nat) (h : r0.start_time ≤ c) :
    ResultOk (executeTry ctx env r0 c).2.1 := by
  unfold executeTry
  rcases firstRaise env.preOutcomes with _ | e
  case some => exact executeExcept_resultOk env e r0 c h
  rcases henv : env.emitStarted with _ | e
  case some => exact executeExcept_resultOk env e r0 (c + 1) (h.trans (Nat.le_succ c))
  simp only
  set sr := if pyTruthy ctx.host then executeRemote ctx (c + 1)
            else executeLocal ctx env.proc (c + 1) with hsr
  have hstart : sr.1.start_time = c + 1 := by
    rw [hsr]; split
    · rfl
    · exact executeLocal_start ctx env.proc (c + 1)
  have hclock : sr.2 = c + 3 := by
    rw [hsr]; split
    · rfl
    · exact executeLocal_clock ctx env.proc (c + 1)
  rcases firstRaise env.postOutcomes with _ | e
  case some =>
    refine executeExcept_resultOk env e _ (sr.2 + 1) ?_
    simp [hstart, hclock]
  rcases env.emitCompleted with _ | e
  case some =>
    refine executeExcept_resultOk env e _ (sr.2 + 1 + 1) ?_
    simp [hstart, hclock]
  exact ⟨rfl, sr.2, rfl, by simp [hstart, hclock]⟩

lemma execute_storedOk (st : PipelineState) (ctx : CommandContext)
    (env : ExecEnv) (h : StoredOk st) : StoredOk (execute st ctx env).2 := by
  intro id r hr
  simp only [execute, setMap] at hr
  by_cases hid : id = ctx.command_id
  · simp only [hid, if_pos rfl] at hr
    cases hr
    exact executeTry_resultOk ctx env _ (st.clock + 1) (Nat.le_succ st.clock)
  · rw [if_neg hid] at hr
    exact h id r hr

lemma cancel_storedOk (st : PipelineState) (id : Nat) (em : Option PyErr)
    (h : StoredOk st) : StoredOk (cancel_command st id em).2 := by
  intro id' r hr
  unfold cancel_command at hr
  rcases hact : st.active id with _ | ctx
  · rw [hact] at hr; exact h id' r hr
  · rw [hact] at hr
    simp only [setMap] at hr
    by_cases hid : id' = id
    · rw [if_pos hid] at hr
      cases hr
      exact ⟨rfl, st.clock + 1, rfl, Nat.le_succ st.clock⟩
    · rw [if_neg hid] at hr
      exact h id' r hr

lemma runOps_storedOk (ops : List PipeOp) (st : PipelineState)
    (h : StoredOk st) : StoredOk (runOps ops st) := by
  induction ops generalizing st with
  | nil => exact h
  | cons op rest ih =>
    cases op with
    | exec ctx env => exact ih _ (execute_storedOk st ctx env h)
    | cancel id em => exact ih _ (cancel_storedOk st id em h)

/-! ### Claim theorems about the pipeline -/

/-- C1: the claim says an invocation with a non-empty host yields a stored
result with status FAILED and `start_time = end_time`.  In the code,
`_execute_remote` does build such a result, but `execute` then
unconditionally runs `result.status = CommandStatus.COMPLETED` and
`result.end_time = datetime.now()` on it (pipeline.py lines 112–113), so
the result that `execute` returns and that `get_result` retrieves has
status COMPLETED and a strictly later `end_time`; only the error text
survives.  This theorem evaluates the embedded code at the failing
input. -/
theorem C1_remote_result_not_failed :
    (execute PipelineState.start c1ctx {}).1 = .returned c1res ∧
    get_result (execute PipelineState.start c1ctx {}).2 c1ctx.command_id = some c1res ∧
    c1res.status = .completed ∧
    c1res.status ≠ .failed ∧
    c1res.error = some "Remote execution not yet implemented" ∧
    c1res.start_time = 2 ∧ c1res.end_time = some 4 :=
  ⟨rfl, rfl, rfl, by decide, rfl, rfl, rfl⟩

/-- C2: the claim says a local invocation whose process exits non-zero or
times out yields a result from `execute` with status FAILED (exit code -1
and an error naming the timeout in the timeout case).  `_execute_local`
does mark the result FAILED with exactly those fields, but `execute` then
unconditionally overwrites the status with COMPLETED (pipeline.py line
112).  The synthetic exit code -1 and the error text mentioning the
timeout value do survive; the FAILED status does not.  This theorem
evaluates the embedded code on the timeout case and the non-zero-exit
case. -/
theorem C2_local_failure_status_clobbered :
    (execute PipelineState.start c2ctx { proc := .timedOut }).1 = .returned c2resTimeout ∧
    c2resTimeout.status = .completed ∧
    c2resTimeout.status ≠ .failed ∧
    c2resTimeout.exit_code = some (-1) ∧
    c2resTimeout.error = some ("Command timed out after " ++ timeoutStr c2ctx.timeout ++ " seconds") ∧
    (execute PipelineState.start c2ctx { proc := .exited 1 "" "boom" }).1 = .returned c2resExit1 ∧
    c2resExit1.status = .completed ∧
    c2resExit1.status ≠ .failed :=
  ⟨rfl, rfl, by decide, rfl, rfl, rfl, rfl, by decide⟩

/-- C5: every `CommandResult` retrievable via `get_result` on a pipeline
that has run any sequence of `execute` and `cancel_command` calls from a
fresh start has a terminal status and a non-null `end_time` that is at
least its `start_time`.  (In particular no stored result has `end_time`
set while its status is non-terminal: every stored result is terminal.) -/
theorem C5_stored_results_terminal (ops : List PipeOp) (id : Nat)
    (r : CommandResult)
    (h : get_result (runOps ops PipelineState.start) id = some r) :
    r.status.isTerminal = true ∧ ∃ t, r.end_time = some t ∧ r.start_time ≤ t := by
  have h0 : StoredOk PipelineState.start := by
    intro id r hr
    simp [PipelineState.start] at hr
  exact runOps_storedOk ops PipelineState.start h0 id r h

/-- Witness for C5 at a concrete trace: one successful local execution. -/
theorem C5_stored_results_terminal_witness :
    c5res.status.isTerminal = true ∧
    ∃ t, c5res.end_time = some t ∧ c5res.start_time ≤ t :=
  C5_stored_results_terminal
    [PipeOp.exec { command_id := 5, name := "true", args := [] } {}] 5 c5res rfl

/-- C6: after any call to `execute`, the invocation id is absent from
`get_active_commands`, whatever the prior pipeline state and whatever the
outcome (success, strategy failure, or exceptions raised by pre-execute,
post-execute or on-error hooks or by event handlers): the `finally` block
always removes the id from the active map. -/
theorem C6_execute_clears_active (st : PipelineState) (ctx : CommandContext)
    (env : ExecEnv) :
    get_active_commands (execute st ctx env).2 ctx.command_id = none := by
  simp [get_active_commands, execute, setMap]

/-! ### Claim theorems about the plugin registry and command registry -/

/-- C3: the round-trip claim fails on the code.  Loading `c3plugin`
registers its command "hello" into the live shell table
(`ChuiCLI._plugin_commands`) and the shell's `CommandRegistry`, as
claimed; but `unload_plugin` removes command names only from
`PluginRegistry.commands` and `PluginRegistry.command_categories` — maps
that the load path never populates (`PluginRegistry.register_command` has
no callers) — so after a successful unload the plugin itself is gone
while "hello" is still registered in the shell table, in the
`CommandRegistry` command map, and in its `plugin` category list.  This
theorem evaluates the embedded load/unload pair at that input. -/
theorem C3_unload_leaves_commands_registered :
    (load_plugin {} c3plugin).2.raised = none ∧
    (load_plugin {} c3plugin).1.cliCommands "hello" = some 7 ∧
    (load_plugin {} c3plugin).1.creg.commands "hello" = some 7 ∧
    (unload_plugin (load_plugin {} c3plugin).1 "p1").2 = ({} : PyCall) ∧
    alistGet (unload_plugin (load_plugin {} c3plugin).1 "p1").1.plugins "p1" = none ∧
    (unload_plugin (load_plugin {} c3plugin).1 "p1").1.load_order = [] ∧
    (unload_plugin (load_plugin {} c3plugin).1 "p1").1.cliCommands "hello" = some 7 ∧
    (unload_plugin (load_plugin {} c3plugin).1 "p1").1.creg.commands "hello" = some 7 ∧
    alistGet (unload_plugin (load_plugin {} c3plugin).1 "p1").1.creg.categories "plugin" =
      some ["hello"] :=
  ⟨rfl, rfl, rfl, rfl, rfl, rfl, rfl, rfl, rfl⟩

lemma add_category_commands (s : CommandRegistryState) (cat : String) :
    ((s.add_category cat).1).commands = s.commands := by
  unfold CommandRegistryState.add_category
  dsimp only
  split
  · split <;> rfl
  · rfl

lemma register_commands_map (s : CommandRegistryState) (name : String)
    (c : Nat) (cat : String) (i : Option Nat) (h : s.commands name = none) :
    (s.register name c cat i).2 = none ∧
    ∀ n, ((s.register name c cat i).1).commands n =
      if n = name then some c else s.commands n := by
  unfold CommandRegistryState.register
  rw [h]
  simp only [Option.isSome_none, Bool.false_eq_true, if_false]
  constructor
  · cases i
    all_goals repeat' split
    all_goals trivial
  · intro n
    cases i
    all_goals repeat' split
    all_goals simp_all [setStrMap, add_category_commands]

lemma register_of_present (s : CommandRegistryState) (name : String)
    (c : Nat) (cat : String) (i : Option Nat) (v : Nat)
    (h : s.commands name = some v) :
    s.register name c cat i =
      (s, some (.commandError ("Command " ++ name ++ " is already registered"))) := by
  unfold CommandRegistryState.register
  rw [h]
  rfl

/-- C9: registering a name a second time raises `CommandError` before any
mutation, so the second call returns the registry exactly as it was after
the first (command map, instance map, category lists and validator all
unchanged), whatever class, category or instance the second call
passes. -/
theorem C9_reregister_raises_and_preserves (s : CommandRegistryState)
    (name : String) (c c' : Nat) (cat cat' : String) (i i' : Option Nat)
    (h : (s.register name c cat i).2 = none) :
    (s.register name c cat i).1.register name c' cat' i' =
      ((s.register name c cat i).1,
       some (.commandError ("Command " ++ name ++ " is already registered"))) := by
  have h1 : ((s.register name c cat i).1).commands name = some c := by
    rcases hc : s.commands name with _ | v
    · exact ((register_commands_map s name c cat i hc).2 name).trans (if_pos rfl)
    · exfalso
      unfold CommandRegistryState.register at h
      rw [hc] at h
      simp at h
  exact register_of_present _ name c' cat' i' c h1

/-- Witness for C9: registering "echo" twice on a fresh registry. -/
theorem C9_reregister_witness :
    (CommandRegistryState.register {} "echo" 3 "general" (some 3)).1.register
        "echo" 4 "system" none =
      ((CommandRegistryState.register {} "echo" 3 "general" (some 3)).1,
       some (.commandError "Command echo is already registered")) :=
  C9_reregister_raises_and_preserves {} "echo" 3 4 "general" "system" (some 3) none rfl

/-- C10: calling `unload_plugin` with a name that is not loaded, or whose
plugin some other loaded plugin depends on, raises a `PluginError` inside
the `try` before any mutation; the `except` block passes it to
`ErrorHandler.handle` (which handles `PluginError` without re-raising),
so the call returns normally to its caller with the whole registry state
— loaded-plugin map, load order, command map, category lists — unchanged. -/
theorem C10_unload_error_reported_not_raised (s : RegState) (name : String)
    (h : alistGet s.plugins name = none ∨ dependentsOf s name ≠ []) :
    ∃ e, unload_plugin s name = (s, { raised := none, reported := [e] }) ∧
      e.isPluginError = true := by
  unfold unload_plugin
  rcases hp : alistGet s.plugins name with _ | plugin
  · exact ⟨_, rfl, rfl⟩
  · rcases h with h | h
    · rw [hp] at h
      cases h
    · simp only [ne_eq, if_pos h]
      exact ⟨_, rfl, rfl⟩

/-- Witness for C10: unloading a name that was never loaded on a fresh
registry. -/
theorem C10_unload_error_witness :
    ∃ e, unload_plugin {} "ghost" =
        ({}, { raised := none, reported := [e] }) ∧
      e.isPluginError = true :=
  C10_unload_error_reported_not_raised {} "ghost" (Or.inl rfl)

lemma intercalate_single (sep a : String) : String.intercalate sep [a] = a := rfl

lemma alistGet_nil {α : Type} (k : String) :
    alistGet ([] : List (String × α)) k = none := rfl

lemma alistGet_cons {α : Type} (k₀ : String) (v₀ : α) (t : List (String × α))
    (k' : String) :
    alistGet ((k₀, v₀) :: t) k' = if k₀ = k' then some v₀ else alistGet t k' := by
  simp only [alistGet, List.find?]
  by_cases h : k₀ = k' <;> simp [h]

lemma alistGet_set {α : Type} (l : List (String × α)) (k k' : String) (v : α) :
    alistGet (alistSet l k v) k' = if k' = k then some v else alistGet l k' := by
  induction l with
  | nil =>
    show alistGet [(k, v)] k' = _
    rw [alistGet_cons]
    by_cases h : k' = k
    · subst h; simp
    · rw [if_neg (fun hh => h hh.symm), if_neg h]
  | cons p t ih =>
    obtain ⟨k₀, v₀⟩ := p
    simp only [alistSet]
    by_cases h0 : k₀ = k
    · subst h0
      rw [if_pos rfl, alistGet_cons, alistGet_cons]
      by_cases h : k₀ = k'
      · subst h; simp
      · rw [if_neg h, if_neg (fun hh => h hh.symm), if_neg h]
    · rw [if_neg h0, alistGet_cons]
      by_cases h : k₀ = k'
      · subst h
        rw [if_pos rfl, if_neg (fun hh => h0 hh), alistGet_cons, if_pos rfl]
      · rw [if_neg h, ih, alistGet_cons, if_neg h]

lemma registerPluginCommand_ok (s : RegState) (n : String) (c : Nat)
    (h : s.creg.commands n = none) :
    (registerPluginCommand s n c).2.raised = none ∧
    (registerPluginCommand s n c).1.plugins = s.plugins ∧
    (registerPluginCommand s n c).1.load_order = s.load_order ∧
    (registerPluginCommand s n c).1.eventsLog = s.eventsLog ∧
    ∀ m, (registerPluginCommand s n c).1.creg.commands m =
      if m = n then some c else s.creg.commands m := by
  have hr := register_commands_map s.creg n c "plugin" (some c) h
  unfold registerPluginCommand
  dsimp only
  rw [hr.1]
  exact ⟨rfl, rfl, rfl, rfl, hr.2⟩

lemma registerCommandsLoop_ok (s : RegState) (cmds : List (String × Nat))
    (h : ∀ q ∈ cmds, s.creg.commands q.1 = none)
    (hnd : (cmds.map (fun q => q.1)).Nodup) :
    (registerCommandsLoop s cmds).2.raised = none ∧
    (registerCommandsLoop s cmds).1.plugins = s.plugins ∧
    (registerCommandsLoop s cmds).1.load_order = s.load_order ∧
    (registerCommandsLoop s cmds).1.eventsLog = s.eventsLog ∧
    ∀ m, m ∉ cmds.map (fun q => q.1) →
      (registerCommandsLoop s cmds).1.creg.commands m = s.creg.commands m := by
  induction cmds generalizing s with
  | nil => exact ⟨rfl, rfl, rfl, rfl, fun m _ => rfl⟩
  | cons q rest ih =>
    obtain ⟨n, c⟩ := q
    have hn : s.creg.commands n = none := h (n, c) (List.mem_cons_self _ _)
    have hpc := registerPluginCommand_ok s n c hn
    have hnd' : n ∉ rest.map (fun q => q.1) ∧ (rest.map (fun q => q.1)).Nodup := by
      simpa using hnd
    have hrest : ∀ q ∈ rest, ((registerPluginCommand s n c).1).creg.commands q.1 = none := by
      intro q hq
      rw [hpc.2.2.2.2 q.1]
      have hne : q.1 ≠ n := by
        intro hEq
        exact hnd'.1 (hEq ▸ List.mem_map_of_mem _ hq)
      rw [if_neg hne]
      exact h q (List.mem_cons_of_mem _ hq)
    have ihr := ih (registerPluginCommand s n c).1 hrest hnd'.2
    unfold registerCommandsLoop
    dsimp only
    rw [hpc.1]
    refine ⟨ihr.1, ihr.2.1.trans hpc.2.1, ihr.2.2.1.trans hpc.2.2.1,
      ihr.2.2.2.1.trans hpc.2.2.2.1, fun m hm => ?_⟩
    have hm' : m ≠ n ∧ m ∉ rest.map (fun q => q.1) := by simpa using hm
    rw [ihr.2.2.2.2 m hm'.2, hpc.2.2.2.2 m, if_neg hm'.1]

lemma load_plugin_ok (s : RegState) (p : PluginData)
    (hname : p.name ≠ "")
    (hnl : alistGet s.plugins p.name = none)
    (hdeps : p.dependencies.filter (fun d => (alistGet s.plugins d).isNone) = [])
    (hinit : p.initOutcome = none)
    (hfresh : ∀ q ∈ p.commands, s.creg.commands q.1 = none)
    (hnd : (p.commands.map (fun q => q.1)).Nodup) :
    (load_plugin s p).2.raised = none ∧
    (load_plugin s p).1.plugins =
      alistSet s.plugins p.name { data := p, initialized := true } ∧
    ∀ m, m ∉ p.commands.map (fun q => q.1) →
      (load_plugin s p).1.creg.commands m = s.creg.commands m := by
  have hmid :=
    registerCommandsLoop_ok
      { s with
        plugins := alistSet s.plugins p.name { data := p, initialized := true }
        load_order := s.load_order ++ [p.name] }
      p.commands hfresh hnd
  unfold load_plugin
  rw [if_neg hname, hnl]
  simp only [Option.isSome_none, Bool.false_eq_true, if_false, hdeps, ne_eq,
    not_true_eq_false]
  unfold pluginInitialize
  rw [hinit]
  dsimp only
  rw [hmid.1]
  dsimp only
  exact ⟨hmid.1, hmid.2.1, fun m hm => hmid.2.2.2.2 m hm⟩

/-- C4: the dependency law.  For plugins A and B (distinct non-empty
names, B depending exactly on A, initialization hooks that return, and
duplicate-free command names with B's disjoint from A's): loading B on a
fresh registry raises a missing-dependency `PluginError` naming A;
loading A and then B succeeds; and then unloading A reports a
dependent-plugin `PluginError` naming B (passed to the error handler, the
unload performing no mutation). -/
theorem C4_dependency_law (A B : PluginData)
    (hAname : A.name ≠ "") (hBname : B.name ≠ "") (hAB : A.name ≠ B.name)
    (hAdeps : A.dependencies = []) (hBdeps : B.dependencies = [A.name])
    (hAinit : A.initOutcome = none) (hBinit : B.initOutcome = none)
    (hAnd : (A.commands.map (fun q => q.1)).Nodup)
    (hBnd : (B.commands.map (fun q => q.1)).Nodup)
    (hdisj : ∀ q ∈ B.commands, q.1 ∉ A.commands.map (fun q' => q'.1)) :
    (load_plugin {} B).2.raised =
      some (.pluginError ("Missing dependencies for " ++ B.name ++ ": " ++ A.name)) ∧
    (load_plugin {} A).2.raised = none ∧
    (load_plugin (load_plugin {} A).1 B).2.raised = none ∧
    unload_plugin (load_plugin (load_plugin {} A).1 B).1 A.name =
      ((load_plugin (load_plugin {} A).1 B).1,
       { raised := none
         reported := [.pluginError ("Cannot unload " ++ A.name ++ ", required by: " ++
           B.name)] }) := by
  have hA := load_plugin_ok {} A hAname rfl (by rw [hAdeps]; rfl) hAinit
    (fun q _ => rfl) hAnd
  have hAplug : (load_plugin {} A).1.plugins =
      [(A.name, { data := A, initialized := true })] := hA.2.1
  have hBfresh : ∀ q ∈ B.commands, (load_plugin {} A).1.creg.commands q.1 = none :=
    fun q hq => (hA.2.2 q.1 (hdisj q hq)).trans rfl
  have hBnl : alistGet (load_plugin {} A).1.plugins B.name = none := by
    rw [hAplug, alistGet_cons, if_neg hAB, alistGet_nil]
  have hBdepsok : B.dependencies.filter
      (fun d => (alistGet (load_plugin {} A).1.plugins d).isNone) = [] := by
    rw [hBdeps, hAplug]
    simp [List.filter, alistGet_cons]
  have hB := load_plugin_ok (load_plugin {} A).1 B hBname hBnl hBdepsok hBinit
    hBfresh hBnd
  have hBplug : (load_plugin (load_plugin {} A).1 B).1.plugins =
      [(A.name, { data := A, initialized := true }),
       (B.name, { data := B, initialized := true })] := by
    rw [hB.2.1, hAplug]
    simp [alistSet, hAB]
  refine ⟨?_, hA.1, hB.1, ?_⟩
  · unfold load_plugin
    rw [if_neg hBname, hBdeps]
    simp [alistGet_nil, List.filter, intercalate_single]
  · unfold unload_plugin
    have hgetA : alistGet (load_plugin (load_plugin {} A).1 B).1.plugins A.name =
        some { data := A, initialized := true } := by
      rw [hBplug, alistGet_cons, if_pos rfl]
    rw [hgetA]
    have hdepA : dependentsOf (load_plugin (load_plugin {} A).1 B).1 A.name =
        [B.name] := by
      unfold dependentsOf
      rw [hBplug]
      simp [hAdeps, hBdeps]
    dsimp only
    rw [hdepA]
    simp [intercalate_single]

/-- Plugin A for the C4 witness. -/
def c4A : PluginData := { name := "core", commands := [("ca", 1)] }

/-- Plugin B for the C4 witness: depends on A. -/
def c4B : PluginData :=
  { name := "ext", dependencies := ["core"], commands := [("cb", 2)] }

/-- Witness for C4 at the concrete plugins `c4A` and `c4B`. -/
theorem C4_dependency_law_witness :
    (load_plugin {} c4B).2.raised =
      some (.pluginError "Missing dependencies for ext: core") ∧
    (load_plugin {} c4A).2.raised = none ∧
    (load_plugin (load_plugin {} c4A).1 c4B).2.raised = none ∧
    unload_plugin (load_plugin (load_plugin {} c4A).1 c4B).1 "core" =
      ((load_plugin (load_plugin {} c4A).1 c4B).1,
       { raised := none
         reported := [.pluginError "Cannot unload core, required by: ext"] }) :=
  C4_dependency_law c4A c4B (by decide) (by decide) (by decide) rfl rfl rfl rfl
    (by decide) (by decide) (by decide)

/-! ### Claim theorems about the event manager -/

lemma runHandlers_clean (label : String) (hs : List Handler)
    (h : ∀ g ∈ hs, g.outcome = none) :
    runHandlers label hs = (hs.map Handler.hid, none) := by
  induction hs with
  | nil => rfl
  | cons g t ih =>
    have hg := h g (List.mem_cons_self _ _)
    unfold runHandlers
    rw [hg]
    dsimp only
    rw [ih (fun x hx => h x (List.mem_cons_of_mem _ hx))]
    rfl

lemma runHandlers_fail (label : String) (l₁ : List Handler) (h : Handler)
    (l₂ : List Handler) (m : String)
    (hclean : ∀ g ∈ l₁, g.outcome = none) (hm : h.outcome = some m) :
    runHandlers label (l₁ ++ h :: l₂) =
      (l₁.map Handler.hid ++ [h.hid],
       some { message := "Error in " ++ label ++ ": " ++ m, cause := m }) := by
  induction l₁ with
  | nil =>
    rw [List.nil_append]
    unfold runHandlers
    dsimp only
    rw [hm]
    rfl
  | cons g t ih =>
    have hg := hclean g (List.mem_cons_self _ _)
    rw [List.cons_append]
    unfold runHandlers
    rw [hg]
    dsimp only
    rw [ih (fun x hx => hclean x (List.mem_cons_of_mem _ hx))]
    rfl

lemma emit_state (s : EMState) (ev : Event) :
    (emit s ev).1 = addToTimeline s ev := by
  unfold emit
  dsimp only
  split <;> rfl

lemma addToTimeline_handlers (s : EMState) (ev : Event) :
    (addToTimeline s ev).handlers = s.handlers := by
  unfold addToTimeline
  split
  · rfl
  · split <;> rfl

lemma addToTimeline_wildcards (s : EMState) (ev : Event) :
    (addToTimeline s ev).wildcards = s.wildcards := by
  unfold addToTimeline
  split
  · rfl
  · split <;> rfl

/-- C7: `emit` delivers the event to the exact-name handlers in
subscription order and then to the wildcard handlers.  Part one: when no
handler raises, the invocation order is exactly the exact-name list
followed by the wildcard list and no error escapes.  Part two: when the
first raising handler sits in the exact-name list, dispatch stops with it
(later exact-name and all wildcard handlers are never invoked) and `emit`
raises an `EventError` carrying the original cause, its message naming
the exact-name handler class ("Error in event handler").  Part three: the
same for a first failure among the wildcard handlers ("Error in wildcard
handler"). -/
theorem C7_emit_order_and_error (s : EMState) (ev : Event)
    (l₁ : List Handler) (h : Handler) (l₂ : List Handler) (m : String) :
    ((∀ g ∈ s.handlers ev.name ++ s.wildcards, g.outcome = none) →
      (emit s ev).2 = ((s.handlers ev.name ++ s.wildcards).map Handler.hid, none)) ∧
    (s.handlers ev.name = l₁ ++ h :: l₂ →
      (∀ g ∈ l₁, g.outcome = none) → h.outcome = some m →
      (emit s ev).2 = (l₁.map Handler.hid ++ [h.hid],
        some { message := "Error in event handler: " ++ m, cause := m })) ∧
    ((∀ g ∈ s.handlers ev.name, g.outcome = none) →
      s.wildcards = l₁ ++ h :: l₂ →
      (∀ g ∈ l₁, g.outcome = none) → h.outcome = some m →
      (emit s ev).2 = ((s.handlers ev.name).map Handler.hid ++
          (l₁.map Handler.hid ++ [h.hid]),
        some { message := "Error in wildcard handler: " ++ m, cause := m })) := by
  unfold emit
  dsimp only
  rw [addToTimeline_handlers, addToTimeline_wildcards]
  refine ⟨?_, ?_, ?_⟩
  · intro hall
    rw [runHandlers_clean _ _ (fun g hg => hall g (List.mem_append_left _ hg))]
    dsimp only
    rw [runHandlers_clean _ _ (fun g hg => hall g (List.mem_append_right _ hg))]
    simp
  · intro hsplit hclean hm
    rw [hsplit, runHandlers_fail _ _ _ _ _ hclean hm]
    rfl
  · intro hex hsplit hclean hm
    rw [runHandlers_clean _ _ hex]
    dsimp only
    rw [hsplit, runHandlers_fail _ _ _ _ _ hclean hm]
    rfl

/-- Witness for C7: on `c7emFail` dispatch stops at handler 2 and wraps
its exception; on `c7emOk` both handlers run, exact-name first. -/
theorem C7_emit_order_and_error_witness :
    (emit c7emFail c7ev).2 =
      ([1, 2], some { message := "Error in event handler: bad", cause := "bad" }) ∧
    (emit c7emOk c7ev).2 = ([1, 3], none) := by
  constructor
  · have := (C7_emit_order_and_error c7emFail c7ev [{ hid := 1 }]
      { hid := 2, outcome := some "bad" } [] "bad").2.1 rfl (by decide) rfl
    simpa using this
  · have := (C7_emit_order_and_error c7emOk c7ev [] { hid := 0 } [] "").1 (by decide)
    simpa using this

lemma EMInv_fresh : EMInv EMState.fresh :=
  ⟨fun _ _ => ⟨rfl, rfl⟩, fun _ => Or.inl rfl⟩

lemma EMInv_start (s : EMState) (t : String) (h : EMInv s) :
    EMInv (start_operation s t).2 := by
  unfold EMInv start_operation
  dsimp only
  constructor
  · intro j hj
    refine ⟨?_, (h.1 j (by omega)).2⟩
    simp only [setMap]
    rw [if_neg (by omega)]
    exact (h.1 j (by omega)).1
  · intro j
    by_cases hj : j = s.nextId
    · subst hj
      exact Or.inr (h.1 s.nextId le_rfl).2
    · simp only [setMap, if_neg hj]
      exact h.2 j

lemma EMInv_complete (s : EMState) (oid : Nat) (st : String)
    (er : Option String) (h : EMInv s) : EMInv (complete_operation s oid st er).2 := by
  unfold complete_operation
  rcases hact : s.active oid with _ | ctx
  · exact h
  · simp only
    constructor
    · intro j hj
      constructor
      · simp only [setMap]
        by_cases hj' : j = oid
        · rw [if_pos hj']
        · rw [if_neg hj']
          exact (h.1 j hj).1
      · simp only [setMap]
        by_cases hj' : j = oid
        · subst hj'
          rw [(h.1 j hj).1] at hact
          cases hact
        · rw [if_neg hj']
          exact (h.1 j hj).2
    · intro j
      by_cases hj : j = oid
      · subst hj
        left
        simp [setMap]
      · simp only [setMap, if_neg hj]
        exact h.2 j

lemma EMInv_addToTimeline (s : EMState) (ev : Event) (h : EMInv s) :
    EMInv (addToTimeline s ev) := by
  unfold addToTimeline
  rcases hop : ev.operation_id with _ | oid
  · exact h
  · dsimp only
    rcases hact : s.active oid with _ | ctx
    · exact h
    · dsimp only
      unfold EMInv
      dsimp only
      constructor
      · intro j hj
        refine ⟨?_, (h.1 j hj).2⟩
        simp only [setMap]
        by_cases hj' : j = oid
        · subst hj'
          rw [(h.1 j hj).1] at hact
          cases hact
        · rw [if_neg hj']
          exact (h.1 j hj).1
      · intro j
        by_cases hj : j = oid
        · subst hj
          rcases h.2 j with ha | hc
          · rw [hact] at ha
            cases ha
          · exact Or.inr hc
        · simp only [setMap, if_neg hj]
          exact h.2 j

lemma EMInv_emit (s : EMState) (ev : Event) (h : EMInv s) :
    EMInv (emit s ev).1 := by
  rw [emit_state]
  exact EMInv_addToTimeline s ev h

lemma EMInv_runEM (tr : List EMOp) (s : EMState) (h : EMInv s) :
    EMInv (runEM tr s) := by
  induction tr generalizing s with
  | nil => exact h
  | cons op rest ih =>
    cases op with
    | startOp t => exact ih _ (EMInv_start s t h)
    | completeOp o st er => exact ih _ (EMInv_complete s o st er h)
    | emitEv ev => exact ih _ (EMInv_emit s ev h)

lemma inTimelineRaw_start (s : EMState) (t : String) (oid : Nat) (x : EventSnap)
    (h : EMInv s) (hx : inTimelineRaw s oid x) :
    inTimelineRaw (start_operation s t).2 oid x := by
  have hne : oid ≠ s.nextId := by
    intro hEq
    rcases hx with ⟨ctx, hc, _⟩ | ⟨ctx, hc, _⟩
    · rw [(h.1 oid (hEq ▸ le_rfl)).1] at hc
      cases hc
    · rw [(h.1 oid (hEq ▸ le_rfl)).2] at hc
      cases hc
  unfold start_operation
  dsimp only
  rcases hx with ⟨ctx, hc, hm⟩ | ⟨ctx, hc, hm⟩
  · left
    refine ⟨ctx, ?_, hm⟩
    simp only [setMap, if_neg hne]
    exact hc
  · exact Or.inr ⟨ctx, hc, hm⟩

lemma inTimelineRaw_complete (s : EMState) (oid' : Nat) (st : String)
    (er : Option String) (oid : Nat) (x : EventSnap)
    (h : EMInv s) (hx : inTimelineRaw s oid x) :
    inTimelineRaw (complete_operation s oid' st er).2 oid x := by
  unfold complete_operation
  rcases hact : s.active oid' with _ | ctx'
  · exact hx
  · dsimp only
    unfold inTimelineRaw
    dsimp only
    by_cases he : oid = oid'
    · subst he
      rcases hx with ⟨ctx, hc, hm⟩ | ⟨ctx, hc, hm⟩
      · rw [hact] at hc
        injection hc with hc
        subst hc
        right
        refine ⟨{ ctx' with status := st, end_time := some s.clock, error := er },
          ?_, hm⟩
        simp [setMap]
      · rcases h.2 oid with ha | hcc
        · rw [hact] at ha
          cases ha
        · rw [hcc] at hc
          cases hc
    · rcases hx with ⟨ctx, hc, hm⟩ | ⟨ctx, hc, hm⟩
      · left
        refine ⟨ctx, ?_, hm⟩
        simp only [setMap, if_neg he]
        exact hc
      · right
        refine ⟨ctx, ?_, hm⟩
        simp only [setMap, if_neg he]
        exact hc

lemma inTimelineRaw_addToTimeline (s : EMState) (ev : Event) (oid : Nat)
    (x : EventSnap) (hx : inTimelineRaw s oid x) :
    inTimelineRaw (addToTimeline s ev) oid x := by
  unfold addToTimeline
  rcases hop : ev.operation_id with _ | oid'
  · exact hx
  · dsimp only
    rcases hact : s.active oid' with _ | ctx'
    · exact hx
    · dsimp only
      unfold inTimelineRaw
      dsimp only
      by_cases he : oid = oid'
      · subst he
        rcases hx with ⟨ctx, hc, hm⟩ | ⟨ctx, hc, hm⟩
        · rw [hact] at hc
          injection hc with hc
          subst hc
          left
          refine ⟨{ ctx' with events := ctx'.events ++ [ev.snap] }, ?_, ?_⟩
          · simp [setMap]
          · exact List.mem_append_left _ hm
        · exact Or.inr ⟨ctx, hc, hm⟩
      · rcases hx with ⟨ctx, hc, hm⟩ | ⟨ctx, hc, hm⟩
        · left
          refine ⟨ctx, ?_, hm⟩
          simp only [setMap, if_neg he]
          exact hc
        · exact Or.inr ⟨ctx, hc, hm⟩

lemma inTimelineRaw_emit (s : EMState) (ev : Event) (oid : Nat) (x : EventSnap)
    (hx : inTimelineRaw s oid x) : inTimelineRaw (emit s ev).1 oid x := by
  rw [emit_state]
  exact inTimelineRaw_addToTimeline s ev oid x hx

lemma runEM_keeps (tr : List EMOp) (s : EMState) (oid : Nat) (x : EventSnap)
    (hinv : EMInv s) (hx : inTimelineRaw s oid x) :
    inTimelineRaw (runEM tr s) oid x := by
  induction tr generalizing s with
  | nil => exact hx
  | cons op rest ih =>
    cases op with
    | startOp t =>
      exact ih _ (EMInv_start s t hinv) (inTimelineRaw_start s t oid x hinv hx)
    | completeOp o st er =>
      exact ih _ (EMInv_complete s o st er hinv)
        (inTimelineRaw_complete s o st er oid x hinv hx)
    | emitEv ev =>
      exact ih _ (EMInv_emit s ev hinv) (inTimelineRaw_emit s ev oid x hx)

lemma inTimelineRaw_mem (s : EMState) (oid : Nat) (x : EventSnap)
    (hinv : EMInv s) (hx : inTimelineRaw s oid x) :
    x ∈ get_operation_timeline s oid := by
  unfold get_operation_timeline get_operation_status
  rcases hx with ⟨ctx, hc, hm⟩ | ⟨ctx, hc, hm⟩
  · rw [hc]
    exact (List.mem_insertionSort tsLe).mpr hm
  · rcases h2 : s.active oid with _ | ctx'
    · rw [hc]
      exact (List.mem_insertionSort tsLe).mpr hm
    · rcases hinv.2 oid with ha | hcc
      · rw [h2] at ha
        cases ha
      · rw [hcc] at hc
        cases hc

lemma emit_adds (s : EMState) (ev : Event) (oid : Nat) (ctx : OperationContext)
    (hop : ev.operation_id = some oid) (hact : s.active oid = some ctx) :
    inTimelineRaw (emit s ev).1 oid ev.snap := by
  rw [emit_state]
  unfold addToTimeline
  rw [hop]
  dsimp only
  rw [hact]
  dsimp only
  left
  refine ⟨{ ctx with events := ctx.events ++ [ev.snap] }, ?_, ?_⟩
  · simp [setMap]
  · exact List.mem_append_right _ (List.mem_singleton_self _)

lemma runEM_append (l₁ l₂ : List EMOp) (s : EMState) :
    runEM (l₁ ++ l₂) s = runEM l₂ (runEM l₁ s) := by
  induction l₁ generalizing s with
  | nil => rfl
  | cons op rest ih =>
    cases op <;> simp only [List.cons_append, runEM] <;> exact ih _

lemma complete_nextId (s : EMState) (o : Nat) (st : String) (er : Option String) :
    (complete_operation s o st er).2.nextId = s.nextId := by
  unfold complete_operation
  rcases s.active o <;> rfl

lemma addToTimeline_nextId (s : EMState) (ev : Event) :
    (addToTimeline s ev).nextId = s.nextId := by
  unfold addToTimeline
  split
  · rfl
  · split <;> rfl

lemma runEM_nextId (tr : List EMOp) (s : EMState) :
    (runEM tr s).nextId = s.nextId + countStarts tr := by
  induction tr generalizing s with
  | nil => rfl
  | cons op rest ih =>
    cases op with
    | startOp t =>
      show (runEM rest (start_operation s t).2).nextId =
        s.nextId + (countStarts rest + 1)
      rw [ih]
      unfold start_operation
      dsimp only
      omega
    | completeOp o st er =>
      show (runEM rest (complete_operation s o st er).2).nextId = _
      rw [ih, complete_nextId]
      rfl
    | emitEv ev =>
      show (runEM rest (emit s ev).1).nextId = _
      rw [ih, emit_state, addToTimeline_nextId]
      rfl

lemma timeline_sorted (s : EMState) (oid : Nat) :
    List.Sorted tsLe (get_operation_timeline s oid) := by
  unfold get_operation_timeline
  rcases get_operation_status s oid with _ | ctx
  · exact List.sorted_nil
  · exact List.sorted_insertionSort tsLe ctx.events

lemma timeline_unknown (tr : List EMOp) (oid : Nat) (h : countStarts tr ≤ oid) :
    get_operation_timeline (runEM tr EMState.fresh) oid = [] := by
  have hinv := EMInv_runEM tr EMState.fresh EMInv_fresh
  have hn : (runEM tr EMState.fresh).nextId = countStarts tr := by
    rw [runEM_nextId]
    simp [EMState.fresh]
  have hf := hinv.1 oid (by omega)
  unfold get_operation_timeline get_operation_status
  rw [hf.1, hf.2]

/-- C8 (counterexample): the claim promises that every event emitted with
an operation id obtained from `start_operation` appears in that
operation's timeline — but `emit` appends to the timeline only while the
operation is in the *active* store.  Starting operation 0, completing it,
and then emitting `c8ev` (which carries operation id 0) leaves the
timeline empty: the emitted event is lost. -/
theorem C8_completed_op_event_lost :
    (start_operation EMState.fresh "plugin_load").1 = 0 ∧
    c8ev.operation_id = some 0 ∧
    get_operation_timeline (runEM c8trace EMState.fresh) 0 = [] :=
  ⟨rfl, rfl, rfl⟩

/-- C8 (amended): for an operation id returned by `start_operation`,
every event emitted with that operation id *while the operation is still
active* appears in `get_operation_timeline(id)` (also after any further
operations); the returned snapshots are always in non-decreasing
timestamp order; and for an id never returned by `start_operation` the
timeline is empty. -/
theorem C8_active_op_timeline :
    (∀ (pre post : List EMOp) (ev : Event) (oid : Nat),
      ev.operation_id = some oid →
      (∃ ctx, (runEM pre EMState.fresh).active oid = some ctx) →
      ev.snap ∈ get_operation_timeline
        (runEM (pre ++ EMOp.emitEv ev :: post) EMState.fresh) oid) ∧
    (∀ (tr : List EMOp) (oid : Nat),
      List.Sorted tsLe (get_operation_timeline (runEM tr EMState.fresh) oid)) ∧
    (∀ (tr : List EMOp) (oid : Nat), countStarts tr ≤ oid →
      get_operation_timeline (runEM tr EMState.fresh) oid = []) := by
  refine ⟨?_, fun tr oid => timeline_sorted _ _, fun tr oid h => timeline_unknown tr oid h⟩
  intro pre post ev oid hop hex
  obtain ⟨ctx, hact⟩ := hex
  rw [runEM_append]
  simp only [runEM]
  have hinv := EMInv_runEM pre EMState.fresh EMInv_fresh
  have h1 : inTimelineRaw (emit (runEM pre EMState.fresh) ev).1 oid ev.snap :=
    emit_adds _ ev oid ctx hop hact
  have hinv1 : EMInv (emit (runEM pre EMState.fresh) ev).1 :=
    EMInv_emit _ ev hinv
  exact inTimelineRaw_mem _ oid ev.snap (EMInv_runEM post _ hinv1)
    (runEM_keeps post _ oid ev.snap hinv1 h1)

/-- Witness for the amended C8: an event emitted while operation 0 is
active survives into the timeline even after the operation completes;
sortedness and the unknown-id case at the concrete trace `c8trace`. -/
theorem C8_active_op_timeline_witness :
    Event.snap c8goodEv ∈ get_operation_timeline
      (runEM ([EMOp.startOp "plugin_load"] ++ EMOp.emitEv c8goodEv ::
        [EMOp.completeOp 0 "completed" none]) EMState.fresh) 0 ∧
    List.Sorted tsLe (get_operation_timeline (runEM c8trace EMState.fresh) 0) ∧
    get_operation_timeline (runEM c8trace EMState.fresh) 3 = [] :=
  ⟨C8_active_op_timeline.1 [EMOp.startOp "plugin_load"]
      [EMOp.completeOp 0 "completed" none] c8goodEv 0 rfl ⟨_, rfl⟩,
   C8_active_op_timeline.2.1 c8trace 0,
   C8_active_op_timeline.2.2 c8trace 3 (by decide)⟩

end Chui
